import Mathlib

/-!
Shallow embedding of the simpleLibraryApp lending core: the Express route
handlers in routes/books.js and routes/borrowings.js together with the MySQL
schema, triggers and stored routines that they rely on.  Dates are modelled as
integers (day numbers), monetary amounts as integers, SQL NULL as Option, and
each request handler as a function from an explicit database state to either a
typed failure (the rolled-back transaction) or the committed successor state.
-/

namespace SimpleLibrary

/-- status ENUM of the borrowings table. -/
inductive LoanStatus
  | borrowed
  | returned
  | overdue
  | lost
deriving DecidableEq

/-- membership_status ENUM of the members table. -/
inductive MembershipStatus
  | active
  | expired
  | suspended
deriving DecidableEq

/-- One row of the books table (columns used by the route handlers). -/
structure Book where
  book_id : Nat
  title : String
  isbn : Option String
  publisher_id : Option Nat
  publication_year : Option Int
  language : String
  page_count : Option Int
  description : Option String
  available_copies : Int
  total_copies : Int
deriving DecidableEq

/-- One row of the members table (columns read by the borrowing handlers). -/
structure Member where
  member_id : Nat
  membership_status : MembershipStatus
deriving DecidableEq

/-- One row of the borrowings table. -/
structure Loan where
  borrowing_id : Nat
  book_id : Nat
  member_id : Nat
  borrow_date : Int
  due_date : Int
  return_date : Option Int
  fine_amount : Int
  status : LoanStatus
deriving DecidableEq

/-- The persistent database state: the tables touched by the lending core,
plus the AUTO_INCREMENT counters of books and borrowings. -/
structure LibraryState where
  books : List Book
  members : List Member
  loans : List Loan
  book_authors : List (Nat × Nat)
  book_categories : List (Nat × Nat)
  nextBookId : Nat
  nextBorrowingId : Nat
deriving DecidableEq

/-- Typed failures: each corresponds to one early-return error response of a
route handler (or to the borrowings.book_id ON DELETE RESTRICT constraint). -/
inductive LibError
  | BookNotFound
  | NoAvailableCopies
  | MemberNotFound
  | MemberNotActive
  | MemberHasOverdueLoans
  | LoanNotFound
  | AlreadyReturned
  | CannotExtendReturned
  | InvalidDueDate
  | MissingDueDate
  | BookHasActiveLoans
  | ForeignKeyRestrict
deriving DecidableEq

/-- SELECT ... FROM books WHERE book_id = ? -/
def findBook (s : LibraryState) (bid : Nat) : Option Book :=
  s.books.find? (fun b => b.book_id = bid)

/-- SELECT ... FROM members WHERE member_id = ? -/
def findMember (s : LibraryState) (mid : Nat) : Option Member :=
  s.members.find? (fun m => m.member_id = mid)

/-- SELECT ... FROM borrowings WHERE borrowing_id = ? -/
def findLoan (s : LibraryState) (lid : Nat) : Option Loan :=
  s.loans.find? (fun l => l.borrowing_id = lid)

/-- A loan is active when its status is in the set checked everywhere in the
source: status IN (borrowed, overdue). -/
def loanActive (l : Loan) : Prop :=
  l.status = LoanStatus.borrowed ∨ l.status = LoanStatus.overdue

instance (l : Loan) : Decidable (loanActive l) := by
  unfold loanActive; infer_instance

/-- MySQL function GetActiveBorrowingsCount: COUNT of borrowings of the book
with status IN (borrowed, overdue). -/
def GetActiveBorrowingsCount (loans : List Loan) (bid : Nat) : Nat :=
  (loans.filter (fun l => l.book_id = bid ∧ loanActive l)).length

/-- Trigger after_borrowing_insert: unconditionally decrements
available_copies of the inserted row book. -/
def afterBorrowingInsert (books : List Book) (bid : Nat) : List Book :=
  books.map (fun b =>
    if b.book_id = bid then
      { b with available_copies := b.available_copies - 1 }
    else b)

/-- Trigger after_borrowing_update: increments available_copies of the book
exactly when the row transitions into status returned from a different
status. -/
def afterBorrowingUpdate (books : List Book) (oldStatus newStatus : LoanStatus)
    (bid : Nat) : List Book :=
  if newStatus = LoanStatus.returned ∧ oldStatus ≠ LoanStatus.returned then
    books.map (fun b =>
      if b.book_id = bid then
        { b with available_copies := b.available_copies + 1 }
      else b)
  else books

/-- POST /borrowings (routes/borrowings.js): check book availability, member
existence and activity, member overdue count; default the due date to the
current date + 14 days and the borrow date to the current date; insert the
loan row (the after_borrowing_insert trigger then decrements
available_copies).  today is CURDATE() as a day number. -/
def createLoan (today : Int) (book_id member_id : Nat)
    (borrow_date due_date : Option Int) (s : LibraryState) :
    Except LibError LibraryState :=
  match findBook s book_id with
  | none => Except.error LibError.BookNotFound
  | some book =>
    if book.available_copies ≤ 0 then
      Except.error LibError.NoAvailableCopies
    else
      match findMember s member_id with
      | none => Except.error LibError.MemberNotFound
      | some m =>
        if m.membership_status ≠ MembershipStatus.active then
          Except.error LibError.MemberNotActive
        else if 0 < (s.loans.filter (fun l =>
            l.member_id = member_id ∧ l.status = LoanStatus.overdue)).length then
          Except.error LibError.MemberHasOverdueLoans
        else
          let finalDueDate := due_date.getD (today + 14)
          let loan : Loan :=
            { borrowing_id := s.nextBorrowingId
              book_id := book_id
              member_id := member_id
              borrow_date := borrow_date.getD today
              due_date := finalDueDate
              return_date := none
              fine_amount := 0
              status := LoanStatus.borrowed }
          Except.ok
            { s with
              loans := s.loans ++ [loan]
              books := afterBorrowingInsert s.books book_id
              nextBorrowingId := s.nextBorrowingId + 1 }

/-- PUT /borrowings/:id/return (routes/borrowings.js): reject a missing row or
status returned; otherwise set status returned, return_date to the supplied
date or the current date, and fine_amount to the supplied amount or 0
(the JS expression fine_amount || 0); the after_borrowing_update trigger then
increments available_copies of the book. -/
def returnLoan (today : Int) (borrowing_id : Nat)
    (return_date fine_amount : Option Int) (s : LibraryState) :
    Except LibError LibraryState :=
  match findLoan s borrowing_id with
  | none => Except.error LibError.LoanNotFound
  | some loan =>
    if loan.status = LoanStatus.returned then
      Except.error LibError.AlreadyReturned
    else
      Except.ok
        { s with
          loans := s.loans.map (fun l =>
            if l.borrowing_id = borrowing_id then
              { l with
                status := LoanStatus.returned
                return_date := some (return_date.getD today)
                fine_amount := fine_amount.getD 0 }
            else l)
          books := afterBorrowingUpdate s.books loan.status
            LoanStatus.returned loan.book_id }

/-- The new status the extend UPDATE gives a row: its CASE expression turns
overdue into borrowed and keeps every other status. -/
def extendStatus (st : LoanStatus) : LoanStatus :=
  if st = LoanStatus.overdue then LoanStatus.borrowed else st

/-- PUT /borrowings/:id/extend (routes/borrowings.js): require a new due date,
reject a missing row, status returned, or a new due date not after the current
one; otherwise update due_date and apply the CASE status rule.  The
after_borrowing_update trigger fires on the UPDATE; its condition is included
verbatim (it never holds here because the new status is never returned). -/
def extendDueDate (borrowing_id : Nat) (new_due_date : Option Int)
    (s : LibraryState) : Except LibError LibraryState :=
  match new_due_date with
  | none => Except.error LibError.MissingDueDate
  | some nd =>
    match findLoan s borrowing_id with
    | none => Except.error LibError.LoanNotFound
    | some loan =>
      if loan.status = LoanStatus.returned then
        Except.error LibError.CannotExtendReturned
      else if nd ≤ loan.due_date then
        Except.error LibError.InvalidDueDate
      else
        Except.ok
          { s with
            loans := s.loans.map (fun l =>
              if l.borrowing_id = borrowing_id then
                { l with due_date := nd, status := extendStatus l.status }
              else l)
            books := afterBorrowingUpdate s.books loan.status
              (extendStatus loan.status) loan.book_id }

/-- POST /borrowings/update-overdue (routes/borrowings.js): the set-based
UPDATE that turns status borrowed into overdue on every row with
due_date < CURDATE().  The after_borrowing_update trigger condition
(new status = returned) never holds for these rows, so the books table is
untouched, matching the source. -/
def updateOverdue (today : Int) (s : LibraryState) : LibraryState :=
  { s with
    loans := s.loans.map (fun l =>
      if l.due_date < today ∧ l.status = LoanStatus.borrowed then
        { l with status := LoanStatus.overdue }
      else l) }

/-- The daily fine actually used: the JS expression fine_per_day || 1.00
defaults both a missing and a zero value to 1. -/
def dailyFine (fine_per_day : Option Int) : Int :=
  match fine_per_day with
  | none => 1
  | some x => if x = 0 then 1 else x

/-- POST /borrowings/calculate-fines (routes/borrowings.js): the set-based
UPDATE setting fine_amount = DATEDIFF(CURDATE(), due_date) * fine_per_day on
every row with status overdue and return_date NULL.  DATEDIFF(a, b) is a − b
in days; the source applies no max-0 clamp.  The status column is not in the
SET list, so the after_borrowing_update trigger condition never holds and the
books table is untouched. -/
def calculateFines (today : Int) (fine_per_day : Option Int)
    (s : LibraryState) : LibraryState :=
  { s with
    loans := s.loans.map (fun l =>
      if l.status = LoanStatus.overdue ∧ l.return_date = none then
        { l with fine_amount := (today - l.due_date) * dailyFine fine_per_day }
      else l) }

/-- Request body of POST /books (routes/books.js): available_copies is not
read from the request; the INSERT sets it equal to total_copies. -/
structure BookRequest where
  title : String
  isbn : Option String
  publisher_id : Option Nat
  publication_year : Option Int
  language : String
  page_count : Option Int
  description : Option String
  total_copies : Int
  author_ids : Option (List Nat)
  category_ids : Option (List Nat)
deriving DecidableEq

/-- Request body of PUT /books/:id (routes/books.js): unlike creation, the
update reads available_copies directly from the request. -/
structure BookUpdateRequest where
  title : String
  isbn : Option String
  publisher_id : Option Nat
  publication_year : Option Int
  language : String
  page_count : Option Int
  description : Option String
  total_copies : Int
  available_copies : Int
  author_ids : Option (List Nat)
  category_ids : Option (List Nat)
deriving DecidableEq

/-- POST /books (routes/books.js): INSERT the book with
available_copies = total_copies, then INSERT the author and category link
rows when a non-empty id list was supplied.  Returns the new book id. -/
def createBook (req : BookRequest) (s : LibraryState) : LibraryState × Nat :=
  let bookId := s.nextBookId
  let book : Book :=
    { book_id := bookId
      title := req.title
      isbn := req.isbn
      publisher_id := req.publisher_id
      publication_year := req.publication_year
      language := req.language
      page_count := req.page_count
      description := req.description
      available_copies := req.total_copies
      total_copies := req.total_copies }
  let aLinks := match req.author_ids with
    | some ids => ids.map (fun a => (bookId, a))
    | none => []
  let cLinks := match req.category_ids with
    | some ids => ids.map (fun c => (bookId, c))
    | none => []
  ({ s with
      books := s.books ++ [book]
      book_authors := s.book_authors ++ aLinks
      book_categories := s.book_categories ++ cLinks
      nextBookId := bookId + 1 }, bookId)

/-- The delete-then-insert link replacement performed inside PUT /books/:id:
DELETE FROM the link table WHERE book_id = ?, then INSERT the supplied pairs
(the insert is skipped for an empty list, which leaves the book without
links, exactly as the delete alone does). -/
def replaceLinks (links : List (Nat × Nat)) (bid : Nat) (ids : List Nat) :
    List (Nat × Nat) :=
  (links.filter (fun p => p.1 ≠ bid)) ++ ids.map (fun i => (bid, i))

/-- PUT /books/:id (routes/books.js): a single UPDATE writes every column,
total_copies and available_copies included, verbatim from the request body;
then, when author_ids (resp. category_ids) is present — an empty array
included — the links are replaced wholesale. -/
def updateBook (bid : Nat) (req : BookUpdateRequest) (s : LibraryState) :
    LibraryState :=
  { s with
    books := s.books.map (fun b =>
      if b.book_id = bid then
        { b with
          title := req.title
          isbn := req.isbn
          publisher_id := req.publisher_id
          publication_year := req.publication_year
          language := req.language
          page_count := req.page_count
          description := req.description
          total_copies := req.total_copies
          available_copies := req.available_copies }
      else b)
    book_authors := match req.author_ids with
      | some ids => replaceLinks s.book_authors bid ids
      | none => s.book_authors
    book_categories := match req.category_ids with
      | some ids => replaceLinks s.book_categories bid ids
      | none => s.book_categories }

/-- DELETE /books/:id (routes/books.js): first the GetActiveBorrowingsCount
check; then the transaction deletes the link rows and the book row.  The
borrowings table references books with ON DELETE RESTRICT, so the DELETE of a
book still referenced by any loan row fails and the transaction rolls back;
that storage-level failure is the ForeignKeyRestrict case. -/
def deleteBook (bid : Nat) (s : LibraryState) : Except LibError LibraryState :=
  if 0 < GetActiveBorrowingsCount s.loans bid then
    Except.error LibError.BookHasActiveLoans
  else if s.loans.any (fun l => l.book_id = bid) then
    Except.error LibError.ForeignKeyRestrict
  else
    Except.ok
      { s with
        book_authors := s.book_authors.filter (fun p => p.1 ≠ bid)
        book_categories := s.book_categories.filter (fun p => p.1 ≠ bid)
        books := s.books.filter (fun b => b.book_id ≠ bid) }

/-- The database state an error response leaves behind: every handler either
commits the new state or rolls the transaction back to the input state. -/
def commit (s : LibraryState) (r : Except LibError LibraryState) :
    LibraryState :=
  match r with
  | Except.ok s' => s'
  | Except.error _ => s

/-- An empty database holding only externally-managed member rows, with the
AUTO_INCREMENT counters at their initial value. -/
def initState (members : List Member) : LibraryState :=
  { books := []
    members := members
    loans := []
    book_authors := []
    book_categories := []
    nextBookId := 1
    nextBorrowingId := 1 }

/-- One successfully committed request of the lending core. -/
inductive Step : LibraryState → LibraryState → Prop
  | createBook (s : LibraryState) (req : BookRequest) :
      Step s (createBook req s).1
  | updateBook (s : LibraryState) (bid : Nat) (req : BookUpdateRequest) :
      Step s (updateBook bid req s)
  | deleteBook (s s' : LibraryState) (bid : Nat) :
      deleteBook bid s = Except.ok s' → Step s s'
  | createLoan (s s' : LibraryState) (today : Int) (bid mid : Nat)
      (bd dd : Option Int) :
      createLoan today bid mid bd dd s = Except.ok s' → Step s s'
  | returnLoan (s s' : LibraryState) (today : Int) (lid : Nat)
      (rd fa : Option Int) :
      returnLoan today lid rd fa s = Except.ok s' → Step s s'
  | extendDueDate (s s' : LibraryState) (lid : Nat) (nd : Option Int) :
      extendDueDate lid nd s = Except.ok s' → Step s s'
  | updateOverdue (s : LibraryState) (today : Int) :
      Step s (updateOverdue today s)
  | calculateFines (s : LibraryState) (today : Int) (fpd : Option Int) :
      Step s (calculateFines today fpd s)

/-- States reachable from an initial database through committed requests. -/
inductive Reachable : LibraryState → Prop
  | init (members : List Member) : Reachable (initState members)
  | step {s s' : LibraryState} : Reachable s → Step s s' → Reachable s'

/-- The copy-counter invariant of the specification: for every book,
0 ≤ available_copies ≤ total_copies and available_copies equals total_copies
minus the number of active loans of the book. -/
def CountersInvariant (s : LibraryState) : Prop :=
  ∀ b ∈ s.books, 0 ≤ b.available_copies ∧
    b.available_copies ≤ b.total_copies ∧
    b.available_copies =
      b.total_copies - (GetActiveBorrowingsCount s.loans b.book_id : Int)

/-- No loan row carries status lost (no handler ever writes it). -/
def NoLostLoans (s : LibraryState) : Prop :=
  ∀ l ∈ s.loans, l.status ≠ LoanStatus.lost

/-- Every stored book id is below the AUTO_INCREMENT counter. -/
def BookIdsFresh (s : LibraryState) : Prop :=
  ∀ b ∈ s.books, b.book_id < s.nextBookId

/-- book_id is a primary key. -/
def BookIdsNodup (s : LibraryState) : Prop :=
  (s.books.map Book.book_id).Nodup

/-- Every stored borrowing id is below the AUTO_INCREMENT counter. -/
def LoanIdsFresh (s : LibraryState) : Prop :=
  ∀ l ∈ s.loans, l.borrowing_id < s.nextBorrowingId

/-- borrowing_id is a primary key. -/
def LoanIdsNodup (s : LibraryState) : Prop :=
  (s.loans.map Loan.borrowing_id).Nodup

/-- The borrowings.book_id foreign key: every loan references a stored book. -/
def LoansFK (s : LibraryState) : Prop :=
  ∀ l ∈ s.loans, ∃ b ∈ s.books, b.book_id = l.book_id

/-- The full state invariant maintained by the loan-side operations. -/
def Inv (s : LibraryState) : Prop :=
  CountersInvariant s ∧ NoLostLoans s ∧ BookIdsFresh s ∧ BookIdsNodup s ∧
    LoanIdsFresh s ∧ LoanIdsNodup s ∧ LoansFK s

instance : DecidableEq (Except LibError LibraryState) := fun a b =>
  match a, b with
  | Except.ok x, Except.ok y => decidable_of_iff (x = y) (by simp)
  | Except.error x, Except.error y => decidable_of_iff (x = y) (by simp)
  | Except.ok _, Except.error _ => isFalse (by simp)
  | Except.error _, Except.ok _ => isFalse (by simp)

instance (s : LibraryState) : Decidable (CountersInvariant s) := by
  unfold CountersInvariant; infer_instance

instance (s : LibraryState) : Decidable (NoLostLoans s) := by
  unfold NoLostLoans; infer_instance

instance (s : LibraryState) : Decidable (BookIdsFresh s) := by
  unfold BookIdsFresh; infer_instance

instance (s : LibraryState) : Decidable (BookIdsNodup s) := by
  unfold BookIdsNodup; infer_instance

instance (s : LibraryState) : Decidable (LoanIdsFresh s) := by
  unfold LoanIdsFresh; infer_instance

instance (s : LibraryState) : Decidable (LoanIdsNodup s) := by
  unfold LoanIdsNodup; infer_instance

instance (s : LibraryState) : Decidable (LoansFK s) := by
  unfold LoansFK; infer_instance

instance (s : LibraryState) : Decidable (Inv s) := by
  unfold Inv; infer_instance

/-- An active member used by the concrete scenarios. -/
def demoMember : Member :=
  { member_id := 1, membership_status := MembershipStatus.active }

/-- A creation request for a one-copy book. -/
def demoBookReq : BookRequest :=
  { title := "t"
    isbn := none
    publisher_id := none
    publication_year := none
    language := "English"
    page_count := none
    description := none
    total_copies := 1
    author_ids := none
    category_ids := none }

/-- The empty database with the single active member. -/
def demoState0 : LibraryState := initState [demoMember]

/-- After creating the one-copy book (book id 1, available 1). -/
def demoState1 : LibraryState := (createBook demoBookReq demoState0).1

/-- After member 1 borrows book 1 on day 0 (available 0, one borrowed loan). -/
def demoState2 : LibraryState :=
  commit demoState1 (createLoan 0 1 1 none none demoState1)

/-- An administrative edit sent through PUT /books/:id while the loan is
open: it resubmits total_copies = 1 together with available_copies = 1. -/
def demoUpdateReq : BookUpdateRequest :=
  { title := "t"
    isbn := none
    publisher_id := none
    publication_year := none
    language := "English"
    page_count := none
    description := none
    total_copies := 1
    available_copies := 1
    author_ids := none
    category_ids := none }

/-- The state after that book update: available_copies = 1 although the
borrowed loan is still open. -/
def demoState3 : LibraryState := updateBook 1 demoUpdateReq demoState2

/-- A one-copy book used by the hand-built loan scenarios. -/
def scenarioBook : Book :=
  { book_id := 1
    title := "t"
    isbn := none
    publisher_id := none
    publication_year := none
    language := "English"
    page_count := none
    description := none
    available_copies := 1
    total_copies := 1 }

/-- A loan recorded with status lost (the enum value exists in the schema
although no handler writes it). -/
def lostLoan : Loan :=
  { borrowing_id := 1
    book_id := 1
    member_id := 1
    borrow_date := 0
    due_date := 14
    return_date := none
    fine_amount := 0
    status := LoanStatus.lost }

/-- A database holding the one-copy book and the lost loan. -/
def lostState : LibraryState :=
  { books := [scenarioBook]
    members := [demoMember]
    loans := [lostLoan]
    book_authors := []
    book_categories := []
    nextBookId := 2
    nextBorrowingId := 2 }

/-- A loan already returned. -/
def returnedLoan : Loan :=
  { borrowing_id := 1
    book_id := 1
    member_id := 1
    borrow_date := 0
    due_date := 14
    return_date := some 10
    fine_amount := 3
    status := LoanStatus.returned }

/-- A database holding the one-copy book and the returned loan. -/
def returnedState : LibraryState :=
  { books := [scenarioBook]
    members := [demoMember]
    loans := [returnedLoan]
    book_authors := []
    book_categories := []
    nextBookId := 2
    nextBorrowingId := 2 }

/-- An open loan that already carries a previously computed fine of 5. -/
def finedLoan : Loan :=
  { borrowing_id := 1
    book_id := 1
    member_id := 1
    borrow_date := 0
    due_date := 14
    return_date := none
    fine_amount := 5
    status := LoanStatus.overdue }

/-- A database holding the one-copy book (checked out) and the fined loan. -/
def finedState : LibraryState :=
  { books := [{ scenarioBook with available_copies := 0 }]
    members := [demoMember]
    loans := [finedLoan]
    book_authors := []
    book_categories := []
    nextBookId := 2
    nextBorrowingId := 2 }

/-- The loan created in demoState2: member 1 borrowed book 1 on day 0 with
the defaulted due date day 14. -/
def demoLoan : Loan :=
  { borrowing_id := 1
    book_id := 1
    member_id := 1
    borrow_date := 0
    due_date := 14
    return_date := none
    fine_amount := 0
    status := LoanStatus.borrowed }

/-- Scenario C loan: due 2024-01-10, already swept to overdue.  Dates are day
numbers since 1970-01-01: 2024-01-10 is day 19732 and 2024-01-15 is day
19737. -/
def scenarioOverdueLoan : Loan :=
  { borrowing_id := 1
    book_id := 1
    member_id := 1
    borrow_date := 19718
    due_date := 19732
    return_date := none
    fine_amount := 0
    status := LoanStatus.overdue }

/-- Scenario C database: the checked-out one-copy book and the overdue
loan. -/
def scenarioOverdueState : LibraryState :=
  { books := [{ scenarioBook with available_copies := 0 }]
    members := [demoMember]
    loans := [scenarioOverdueLoan]
    book_authors := []
    book_categories := []
    nextBookId := 2
    nextBorrowingId := 2 }

theorem gabc_cons (x : Loan) (t : List Loan) (bid : Nat) :
    GetActiveBorrowingsCount (x :: t) bid =
      (if x.book_id = bid ∧ loanActive x then 1 else 0) +
        GetActiveBorrowingsCount t bid := by
  simp only [GetActiveBorrowingsCount, List.filter_cons]
  by_cases hx : x.book_id = bid ∧ loanActive x <;> simp [hx, Nat.add_comm]

theorem gabc_append (loans extra : List Loan) (bid : Nat) :
    GetActiveBorrowingsCount (loans ++ extra) bid =
      GetActiveBorrowingsCount loans bid +
        GetActiveBorrowingsCount extra bid := by
  simp [GetActiveBorrowingsCount, List.filter_append]

theorem gabc_map_preserve (loans : List Loan) (f : Loan → Loan) (bid : Nat)
    (hb : ∀ l ∈ loans, (f l).book_id = l.book_id)
    (ha : ∀ l ∈ loans, loanActive (f l) ↔ loanActive l) :
    GetActiveBorrowingsCount (loans.map f) bid =
      GetActiveBorrowingsCount loans bid := by
  simp only [GetActiveBorrowingsCount, ← List.countP_eq_length_filter]
  rw [List.countP_map]
  apply List.countP_congr
  intro l hl
  simp only [Function.comp_apply, decide_eq_true_eq]
  rw [hb l hl]
  exact and_congr Iff.rfl (ha l hl)

theorem gabc_update_single (loans : List Loan) (lid : Nat) (g : Loan → Loan)
    (l0 : Loan) (bid : Nat)
    (hnd : (loans.map Loan.borrowing_id).Nodup)
    (hfind : loans.find? (fun l => l.borrowing_id = lid) = some l0) :
    (GetActiveBorrowingsCount
        (loans.map (fun l => if l.borrowing_id = lid then g l else l)) bid : Int)
      = (GetActiveBorrowingsCount loans bid : Int)
        + (if (g l0).book_id = bid ∧ loanActive (g l0) then 1 else 0)
        - (if l0.book_id = bid ∧ loanActive l0 then 1 else 0) := by
  induction loans with
  | nil => simp at hfind
  | cons h t ih =>
    rw [List.find?_cons] at hfind
    simp only [List.map_cons, List.nodup_cons] at hnd
    by_cases hh : h.borrowing_id = lid
    · have hl0 : h = l0 := by simpa [hh] using hfind
      subst hl0
      have htid : ∀ l ∈ t, ¬ (l.borrowing_id = lid) := by
        intro l hl heq
        exact hnd.1 (hh ▸ heq ▸ List.mem_map_of_mem Loan.borrowing_id hl)
      have hmap : t.map (fun l => if l.borrowing_id = lid then g l else l) = t := by
        have hpt : ∀ l ∈ t,
            (if l.borrowing_id = lid then g l else l) = id l := by
          intro l hl
          simp [htid l hl]
        rw [List.map_congr_left hpt, List.map_id]
      simp only [List.map_cons, hh, if_pos rfl, hmap, gabc_cons]
      push_cast
      split_ifs <;> omega
    · have hfind2 : t.find? (fun l => l.borrowing_id = lid) = some l0 := by
        simpa [hh] using hfind
      have := ih hnd.2 hfind2
      simp only [List.map_cons, if_neg hh, gabc_cons]
      push_cast
      push_cast at this
      omega

theorem find_book_unique (books : List Book) (bid : Nat) (b0 b : Book)
    (hnd : (books.map Book.book_id).Nodup)
    (hfind : books.find? (fun x => x.book_id = bid) = some b0)
    (hb : b ∈ books) (hid : b.book_id = bid) : b = b0 := by
  induction books with
  | nil => simp at hb
  | cons h t ih =>
    rw [List.find?_cons] at hfind
    simp only [List.map_cons, List.nodup_cons] at hnd
    by_cases hh : h.book_id = bid
    · have hl0 : h = b0 := by simpa [hh] using hfind
      rcases List.mem_cons.mp hb with rfl | hbt
      · exact hl0
      · exact absurd (hh ▸ hid ▸ List.mem_map_of_mem Book.book_id hbt) hnd.1
    · have hfind2 : t.find? (fun x => x.book_id = bid) = some b0 := by
        simpa [hh] using hfind
      rcases List.mem_cons.mp hb with rfl | hbt
      · exact absurd hid hh
      · exact ih hnd.2 hfind2 hbt

theorem afterBorrowingInsert_ids (books : List Book) (bid : Nat) :
    (afterBorrowingInsert books bid).map Book.book_id =
      books.map Book.book_id := by
  simp only [afterBorrowingInsert, List.map_map]
  apply List.map_congr_left
  intro b _
  by_cases hb : b.book_id = bid <;> simp [Function.comp_apply, hb]

theorem afterBorrowingUpdate_ids (books : List Book)
    (os ns : LoanStatus) (bid : Nat) :
    (afterBorrowingUpdate books os ns bid).map Book.book_id =
      books.map Book.book_id := by
  unfold afterBorrowingUpdate
  split
  · simp only [List.map_map]
    apply List.map_congr_left
    intro b _
    by_cases hb : b.book_id = bid <;> simp [Function.comp_apply, hb]
  · rfl

theorem gabc_nil (bid : Nat) : GetActiveBorrowingsCount [] bid = 0 := rfl

theorem inv_createLoan (s s' : LibraryState) (today : Int) (bid mid : Nat)
    (bd dd : Option Int) (hInv : Inv s)
    (hok : createLoan today bid mid bd dd s = Except.ok s') : Inv s' := by
  obtain ⟨hC, hNL, hBF, hBN, hLF, hLN, hFK⟩ := hInv
  unfold createLoan at hok
  split at hok
  · exact Except.noConfusion hok
  rename_i book hfb
  split at hok
  · exact Except.noConfusion hok
  rename_i hav
  split at hok
  · exact Except.noConfusion hok
  rename_i m hfm
  split at hok
  · exact Except.noConfusion hok
  split at hok
  · exact Except.noConfusion hok
  injection hok with hok
  subst hok
  have hfb' : s.books.find? (fun b => b.book_id = bid) = some book := hfb
  have hbookmem : book ∈ s.books := List.mem_of_find?_eq_some hfb'
  have hbookid : book.book_id = bid := by
    simpa using List.find?_some hfb'
  have hfid : ∀ c : Book,
      (if c.book_id = bid then
        { c with available_copies := c.available_copies - 1 }
      else c).book_id = c.book_id := by
    intro c
    by_cases h : c.book_id = bid <;> simp [h]
  refine ⟨?_, ?_, ?_, ?_, ?_, ?_, ?_⟩
  · -- counters
    intro b' hb'
    simp only [afterBorrowingInsert, List.mem_map] at hb'
    obtain ⟨b, hb, rfl⟩ := hb'
    have hCb := hC b hb
    by_cases hbid : b.book_id = bid
    · have hbeq : b = book := find_book_unique s.books bid book b hBN hfb hb hbid
      simp only [if_pos hbid, gabc_append, gabc_cons, gabc_nil]
      have hcnt : (if bid = b.book_id ∧
          loanActive
            { borrowing_id := s.nextBorrowingId, book_id := bid, member_id := mid,
              borrow_date := bd.getD today, due_date := dd.getD (today + 14),
              return_date := none, fine_amount := 0,
              status := LoanStatus.borrowed } then 1 else 0) = 1 := by
        simp [hbid, loanActive]
      simp only [hcnt]
      have hav' : 0 < book.available_copies := by omega
      rw [hbeq] at hCb ⊢
      push_cast at hCb ⊢
      omega
    · simp only [if_neg hbid, gabc_append, gabc_cons, gabc_nil]
      have hcond : ¬ (bid = b.book_id ∧
          loanActive
            { borrowing_id := s.nextBorrowingId, book_id := bid, member_id := mid,
              borrow_date := bd.getD today, due_date := dd.getD (today + 14),
              return_date := none, fine_amount := 0,
              status := LoanStatus.borrowed }) := by
        intro hcontra
        exact hbid hcontra.1.symm
      simp only [if_neg hcond]
      push_cast at hCb ⊢
      omega
  · -- no lost loans
    intro l hl
    rcases List.mem_append.mp hl with hl | hl
    · exact hNL l hl
    · simp only [List.mem_singleton] at hl
      subst hl
      simp
  · -- book id freshness
    intro b' hb'
    simp only [afterBorrowingInsert, List.mem_map] at hb'
    obtain ⟨b, hb, rfl⟩ := hb'
    by_cases hbid : b.book_id = bid <;> simpa [hbid] using hBF b hb
  · -- book id nodup
    unfold BookIdsNodup at hBN ⊢
    simpa [afterBorrowingInsert_ids] using hBN
  · -- loan id freshness
    intro l hl
    rcases List.mem_append.mp hl with hl | hl
    · exact Nat.lt_succ_of_lt (hLF l hl)
    · simp only [List.mem_singleton] at hl
      subst hl
      simp
  · -- loan id nodup
    unfold LoanIdsNodup at hLN ⊢
    simp only [List.map_append, List.map_cons, List.map_nil]
    rw [List.nodup_append]
    refine ⟨hLN, List.nodup_singleton _, ?_⟩
    intro x hx hx'
    simp only [List.mem_singleton] at hx'
    subst hx'
    obtain ⟨l, hl, hlid⟩ := List.mem_map.mp hx
    exact absurd hlid (Nat.ne_of_lt (hLF l hl))
  · -- foreign key
    intro l hl
    rcases List.mem_append.mp hl with hl | hl
    · obtain ⟨b, hb, hbid⟩ := hFK l hl
      refine ⟨if b.book_id = bid then
          { b with available_copies := b.available_copies - 1 } else b, ?_, ?_⟩
      · exact List.mem_map_of_mem _ hb
      · rw [hfid]
        exact hbid
    · simp only [List.mem_singleton] at hl
      subst hl
      refine ⟨if book.book_id = bid then
          { book with available_copies := book.available_copies - 1 }
        else book, ?_, ?_⟩
      · exact List.mem_map_of_mem _ hbookmem
      · rw [hfid]
        exact hbookid

theorem inv_returnLoan (s s' : LibraryState) (today : Int) (lid : Nat)
    (rd fa : Option Int) (hInv : Inv s)
    (hok : returnLoan today lid rd fa s = Except.ok s') : Inv s' := by
  obtain ⟨hC, hNL, hBF, hBN, hLF, hLN, hFK⟩ := hInv
  unfold returnLoan at hok
  split at hok
  · exact Except.noConfusion hok
  rename_i loan hfl
  split at hok
  · exact Except.noConfusion hok
  rename_i hret
  injection hok with hok
  subst hok
  have hfl' : s.loans.find? (fun l => l.borrowing_id = lid) = some loan := hfl
  have hloanmem : loan ∈ s.loans := List.mem_of_find?_eq_some hfl'
  have hactive : loanActive loan := by
    have hnl := hNL loan hloanmem
    cases hst : loan.status
    · exact Or.inl hst
    · exact absurd hst hret
    · exact Or.inr hst
    · exact absurd hst hnl
  have htrig : afterBorrowingUpdate s.books loan.status LoanStatus.returned
      loan.book_id
      = s.books.map (fun b => if b.book_id = loan.book_id then
          { b with available_copies := b.available_copies + 1 } else b) := by
    unfold afterBorrowingUpdate
    rw [if_pos ⟨rfl, hret⟩]
  have hcount := gabc_update_single s.loans lid
    (fun l => { l with
      status := LoanStatus.returned
      return_date := some (rd.getD today)
      fine_amount := fa.getD 0 }) loan
  have hge1 : 1 ≤ GetActiveBorrowingsCount s.loans loan.book_id := by
    have hmemf : loan ∈ s.loans.filter
        (fun l => l.book_id = loan.book_id ∧ loanActive l) := by
      simp [List.mem_filter, hloanmem, hactive]
    exact List.length_pos_of_mem hmemf
  have hlids : (s.loans.map (fun l =>
      if l.borrowing_id = lid then
        { l with
          status := LoanStatus.returned
          return_date := some (rd.getD today)
          fine_amount := fa.getD 0 }
      else l)).map Loan.borrowing_id = s.loans.map Loan.borrowing_id := by
    simp only [List.map_map]
    apply List.map_congr_left
    intro l _
    by_cases h : l.borrowing_id = lid <;> simp [Function.comp_apply, h]
  have hfid : ∀ c : Book,
      (if c.book_id = loan.book_id then
        { c with available_copies := c.available_copies + 1 }
      else c).book_id = c.book_id := by
    intro c
    by_cases h : c.book_id = loan.book_id <;> simp [h]
  refine ⟨?_, ?_, ?_, ?_, ?_, ?_, ?_⟩
  · -- counters
    intro b' hb'
    simp only [htrig, List.mem_map] at hb'
    obtain ⟨b, hb, rfl⟩ := hb'
    have hCb := hC b hb
    have hcnt := hcount b.book_id hLN hfl'
    by_cases hbid : b.book_id = loan.book_id
    · have hc1 : ¬ (({ loan with
          status := LoanStatus.returned
          return_date := some (rd.getD today)
          fine_amount := fa.getD 0 } : Loan).book_id = b.book_id ∧
          loanActive { loan with
            status := LoanStatus.returned
            return_date := some (rd.getD today)
            fine_amount := fa.getD 0 }) := by
        intro hcontra
        rcases hcontra.2 with h | h <;> exact LoanStatus.noConfusion h
      have hc2 : loan.book_id = b.book_id ∧ loanActive loan := ⟨hbid.symm, hactive⟩
      rw [if_neg hc1, if_pos hc2] at hcnt
      rw [hbid] at hCb ⊢
      simp only [if_pos rfl]
      simp only [hbid] at hcnt
      push_cast at hCb hcnt ⊢
      simp only [Book.mk.injEq] at *
      constructor
      · omega
      constructor
      · omega
      · omega
    · have hc1 : ¬ (({ loan with
          status := LoanStatus.returned
          return_date := some (rd.getD today)
          fine_amount := fa.getD 0 } : Loan).book_id = b.book_id ∧
          loanActive { loan with
            status := LoanStatus.returned
            return_date := some (rd.getD today)
            fine_amount := fa.getD 0 }) := by
        intro hcontra
        rcases hcontra.2 with h | h <;> exact LoanStatus.noConfusion h
      have hc2 : ¬ (loan.book_id = b.book_id ∧ loanActive loan) := by
        intro hcontra
        exact hbid hcontra.1.symm
      rw [if_neg hc1, if_neg hc2] at hcnt
      rw [if_neg hbid]
      push_cast at hCb hcnt ⊢
      omega
  · -- no lost loans
    intro l' hl'
    simp only [List.mem_map] at hl'
    obtain ⟨l, hl, rfl⟩ := hl'
    by_cases h : l.borrowing_id = lid
    · simp [h]
    · simpa [h] using hNL l hl
  · -- book id freshness
    intro b' hb'
    have hmm : b'.book_id ∈ (afterBorrowingUpdate s.books loan.status
        LoanStatus.returned loan.book_id).map Book.book_id :=
      List.mem_map_of_mem _ hb'
    rw [afterBorrowingUpdate_ids] at hmm
    obtain ⟨b, hb, hid⟩ := List.mem_map.mp hmm
    exact hid ▸ hBF b hb
  · -- book id nodup
    unfold BookIdsNodup at hBN ⊢
    simpa [afterBorrowingUpdate_ids] using hBN
  · -- loan id freshness
    intro l' hl'
    have hmm : l'.borrowing_id ∈ (s.loans.map (fun l =>
        if l.borrowing_id = lid then
          { l with
            status := LoanStatus.returned
            return_date := some (rd.getD today)
            fine_amount := fa.getD 0 }
        else l)).map Loan.borrowing_id := List.mem_map_of_mem _ hl'
    rw [hlids] at hmm
    obtain ⟨l, hl, hid⟩ := List.mem_map.mp hmm
    exact hid ▸ hLF l hl
  · -- loan id nodup
    unfold LoanIdsNodup at hLN ⊢
    simpa [hlids] using hLN
  · -- foreign key
    intro l' hl'
    simp only [List.mem_map] at hl'
    obtain ⟨l, hl, rfl⟩ := hl'
    obtain ⟨b, hb, hbid⟩ := hFK l hl
    rw [htrig]
    refine ⟨if b.book_id = loan.book_id then
        { b with available_copies := b.available_copies + 1 } else b, ?_, ?_⟩
    · exact List.mem_map_of_mem _ hb
    · rw [hfid]
      by_cases h : l.borrowing_id = lid <;> simp [h, hbid]

theorem inv_extendDueDate (s s' : LibraryState) (lid : Nat) (nd : Option Int)
    (hInv : Inv s) (hok : extendDueDate lid nd s = Except.ok s') : Inv s' := by
  obtain ⟨hC, hNL, hBF, hBN, hLF, hLN, hFK⟩ := hInv
  unfold extendDueDate at hok
  split at hok
  · exact Except.noConfusion hok
  rename_i nd'
  split at hok
  · exact Except.noConfusion hok
  rename_i loan hfl
  split at hok
  · exact Except.noConfusion hok
  rename_i hret
  split at hok
  · exact Except.noConfusion hok
  injection hok with hok
  subst hok
  have hns : extendStatus loan.status ≠ LoanStatus.returned := by
    cases hst : loan.status <;> simp [extendStatus]
    exact hret hst
  have htrig : afterBorrowingUpdate s.books loan.status
      (extendStatus loan.status) loan.book_id = s.books := by
    unfold afterBorrowingUpdate
    rw [if_neg]
    intro hcontra
    exact hns hcontra.1
  have hpres : ∀ l : Loan,
      loanActive { l with
        due_date := nd', status := extendStatus l.status } ↔ loanActive l := by
    intro l
    cases hst : l.status <;> simp [extendStatus, loanActive, hst]
  have hcnt : ∀ bid, GetActiveBorrowingsCount (s.loans.map (fun l =>
      if l.borrowing_id = lid then
        { l with due_date := nd', status := extendStatus l.status }
      else l)) bid = GetActiveBorrowingsCount s.loans bid := by
    intro bid
    apply gabc_map_preserve
    · intro l _
      by_cases h : l.borrowing_id = lid <;> simp [h]
    · intro l _
      by_cases h : l.borrowing_id = lid
      · simpa [h] using hpres l
      · simp [h]
  have hlids : (s.loans.map (fun l =>
      if l.borrowing_id = lid then
        { l with due_date := nd', status := extendStatus l.status }
      else l)).map Loan.borrowing_id = s.loans.map Loan.borrowing_id := by
    simp only [List.map_map]
    apply List.map_congr_left
    intro l _
    by_cases h : l.borrowing_id = lid <;> simp [Function.comp_apply, h]
  refine ⟨?_, ?_, ?_, ?_, ?_, ?_, ?_⟩
  · intro b hb
    simp only [htrig] at hb
    have hCb := hC b hb
    simpa [hcnt] using hCb
  · intro l' hl'
    simp only [List.mem_map] at hl'
    obtain ⟨l, hl, rfl⟩ := hl'
    have hnll := hNL l hl
    by_cases h : l.borrowing_id = lid
    · simp only [h, if_pos rfl]
      cases hst : l.status <;> simp [extendStatus] <;> simp [hst] at hnll
    · simpa [h] using hnll
  · intro b hb
    simp only [htrig] at hb
    exact hBF b hb
  · unfold BookIdsNodup at hBN ⊢
    simpa [htrig] using hBN
  · intro l' hl'
    have hmm : l'.borrowing_id ∈ (s.loans.map (fun l =>
        if l.borrowing_id = lid then
          { l with due_date := nd', status := extendStatus l.status }
        else l)).map Loan.borrowing_id := List.mem_map_of_mem _ hl'
    rw [hlids] at hmm
    obtain ⟨l, hl, hid⟩ := List.mem_map.mp hmm
    exact hid ▸ hLF l hl
  · unfold LoanIdsNodup at hLN ⊢
    simpa [hlids] using hLN
  · intro l' hl'
    simp only [List.mem_map] at hl'
    obtain ⟨l, hl, rfl⟩ := hl'
    obtain ⟨b, hb, hbid⟩ := hFK l hl
    rw [htrig]
    refine ⟨b, hb, ?_⟩
    by_cases h : l.borrowing_id = lid <;> simp [h, hbid]

theorem inv_updateOverdue (s : LibraryState) (today : Int) (hInv : Inv s) :
    Inv (updateOverdue today s) := by
  obtain ⟨hC, hNL, hBF, hBN, hLF, hLN, hFK⟩ := hInv
  unfold updateOverdue
  have hcnt : ∀ bid, GetActiveBorrowingsCount (s.loans.map (fun l =>
      if l.due_date < today ∧ l.status = LoanStatus.borrowed then
        { l with status := LoanStatus.overdue }
      else l)) bid = GetActiveBorrowingsCount s.loans bid := by
    intro bid
    apply gabc_map_preserve
    · intro l _
      by_cases h : l.due_date < today ∧ l.status = LoanStatus.borrowed <;>
        simp [h]
    · intro l _
      by_cases h : l.due_date < today ∧ l.status = LoanStatus.borrowed
      · simp [h, loanActive, h.2]
      · simp [h]
  have hlids : (s.loans.map (fun l =>
      if l.due_date < today ∧ l.status = LoanStatus.borrowed then
        { l with status := LoanStatus.overdue }
      else l)).map Loan.borrowing_id = s.loans.map Loan.borrowing_id := by
    simp only [List.map_map]
    apply List.map_congr_left
    intro l _
    by_cases h : l.due_date < today ∧ l.status = LoanStatus.borrowed <;>
      simp [Function.comp_apply, h]
  refine ⟨?_, ?_, hBF, hBN, ?_, ?_, ?_⟩
  · intro b hb
    simpa [hcnt] using hC b hb
  · intro l' hl'
    simp only [List.mem_map] at hl'
    obtain ⟨l, hl, rfl⟩ := hl'
    have hnll := hNL l hl
    by_cases h : l.due_date < today ∧ l.status = LoanStatus.borrowed <;>
      simp [h] <;> exact hnll
  · intro l' hl'
    have hmm : l'.borrowing_id ∈ (s.loans.map (fun l =>
        if l.due_date < today ∧ l.status = LoanStatus.borrowed then
          { l with status := LoanStatus.overdue }
        else l)).map Loan.borrowing_id := List.mem_map_of_mem _ hl'
    rw [hlids] at hmm
    obtain ⟨l, hl, hid⟩ := List.mem_map.mp hmm
    exact hid ▸ hLF l hl
  · unfold LoanIdsNodup at hLN ⊢
    simpa [hlids] using hLN
  · intro l' hl'
    simp only [List.mem_map] at hl'
    obtain ⟨l, hl, rfl⟩ := hl'
    obtain ⟨b, hb, hbid⟩ := hFK l hl
    refine ⟨b, hb, ?_⟩
    by_cases h : l.due_date < today ∧ l.status = LoanStatus.borrowed <;>
      simp [h, hbid]

theorem inv_calculateFines (s : LibraryState) (today : Int)
    (fpd : Option Int) (hInv : Inv s) : Inv (calculateFines today fpd s) := by
  obtain ⟨hC, hNL, hBF, hBN, hLF, hLN, hFK⟩ := hInv
  unfold calculateFines
  have hcnt : ∀ bid, GetActiveBorrowingsCount (s.loans.map (fun l =>
      if l.status = LoanStatus.overdue ∧ l.return_date = none then
        { l with fine_amount := (today - l.due_date) * dailyFine fpd }
      else l)) bid = GetActiveBorrowingsCount s.loans bid := by
    intro bid
    apply gabc_map_preserve
    · intro l _
      by_cases h : l.status = LoanStatus.overdue ∧ l.return_date = none <;>
        simp [h]
    · intro l _
      by_cases h : l.status = LoanStatus.overdue ∧ l.return_date = none <;>
        simp [h, loanActive]
  have hlids : (s.loans.map (fun l =>
      if l.status = LoanStatus.overdue ∧ l.return_date = none then
        { l with fine_amount := (today - l.due_date) * dailyFine fpd }
      else l)).map Loan.borrowing_id = s.loans.map Loan.borrowing_id := by
    simp only [List.map_map]
    apply List.map_congr_left
    intro l _
    by_cases h : l.status = LoanStatus.overdue ∧ l.return_date = none <;>
      simp [Function.comp_apply, h]
  refine ⟨?_, ?_, hBF, hBN, ?_, ?_, ?_⟩
  · intro b hb
    simpa [hcnt] using hC b hb
  · intro l' hl'
    simp only [List.mem_map] at hl'
    obtain ⟨l, hl, rfl⟩ := hl'
    have hnll := hNL l hl
    by_cases h : l.status = LoanStatus.overdue ∧ l.return_date = none <;>
      simp [h] <;> exact hnll
  · intro l' hl'
    have hmm : l'.borrowing_id ∈ (s.loans.map (fun l =>
        if l.status = LoanStatus.overdue ∧ l.return_date = none then
          { l with fine_amount := (today - l.due_date) * dailyFine fpd }
        else l)).map Loan.borrowing_id := List.mem_map_of_mem _ hl'
    rw [hlids] at hmm
    obtain ⟨l, hl, hid⟩ := List.mem_map.mp hmm
    exact hid ▸ hLF l hl
  · unfold LoanIdsNodup at hLN ⊢
    simpa [hlids] using hLN
  · intro l' hl'
    simp only [List.mem_map] at hl'
    obtain ⟨l, hl, rfl⟩ := hl'
    obtain ⟨b, hb, hbid⟩ := hFK l hl
    refine ⟨b, hb, ?_⟩
    by_cases h : l.status = LoanStatus.overdue ∧ l.return_date = none <;>
      simp [h, hbid]

theorem inv_createBook (s : LibraryState) (req : BookRequest)
    (htc : 0 ≤ req.total_copies) (hInv : Inv s) : Inv (createBook req s).1 := by
  obtain ⟨hC, hNL, hBF, hBN, hLF, hLN, hFK⟩ := hInv
  have hzero : GetActiveBorrowingsCount s.loans s.nextBookId = 0 := by
    unfold GetActiveBorrowingsCount
    rw [List.length_eq_zero, List.filter_eq_nil]
    intro l hl
    obtain ⟨b, hb, hbid⟩ := hFK l hl
    have hlt := hBF b hb
    simp only [decide_eq_true_eq, not_and]
    intro heq
    omega
  unfold createBook
  refine ⟨?_, hNL, ?_, ?_, hLF, hLN, ?_⟩
  · intro b hb
    rcases List.mem_append.mp hb with hb | hb
    · exact hC b hb
    · simp only [List.mem_singleton] at hb
      subst hb
      simp only [hzero]
      push_cast
      omega
  · intro b hb
    rcases List.mem_append.mp hb with hb | hb
    · exact Nat.lt_succ_of_lt (hBF b hb)
    · simp only [List.mem_singleton] at hb
      subst hb
      simp
  · unfold BookIdsNodup at hBN ⊢
    simp only [List.map_append, List.map_cons, List.map_nil]
    rw [List.nodup_append]
    refine ⟨hBN, List.nodup_singleton _, ?_⟩
    intro x hx hx'
    simp only [List.mem_singleton] at hx'
    subst hx'
    obtain ⟨b, hb, hbid⟩ := List.mem_map.mp hx
    exact absurd hbid (Nat.ne_of_lt (hBF b hb))
  · intro l hl
    obtain ⟨b, hb, hbid⟩ := hFK l hl
    exact ⟨b, List.mem_append_left _ hb, hbid⟩

theorem inv_deleteBook (s s' : LibraryState) (bid : Nat) (hInv : Inv s)
    (hok : deleteBook bid s = Except.ok s') : Inv s' := by
  obtain ⟨hC, hNL, hBF, hBN, hLF, hLN, hFK⟩ := hInv
  unfold deleteBook at hok
  split at hok
  · exact Except.noConfusion hok
  split at hok
  · exact Except.noConfusion hok
  rename_i hany
  injection hok with hok
  subst hok
  have hnoref : ∀ l ∈ s.loans, ¬ l.book_id = bid := by
    intro l hl heq
    exact hany (by simp [List.any_eq_true]; exact ⟨l, hl, heq⟩)
  refine ⟨?_, hNL, ?_, ?_, hLF, hLN, ?_⟩
  · intro b hb
    exact hC b (List.mem_of_mem_filter hb)
  · intro b hb
    exact hBF b (List.mem_of_mem_filter hb)
  · unfold BookIdsNodup at hBN ⊢
    exact hBN.sublist (List.Sublist.map _ (List.filter_sublist _))
  · intro l hl
    obtain ⟨b, hb, hbid⟩ := hFK l hl
    refine ⟨b, ?_, hbid⟩
    rw [List.mem_filter]
    refine ⟨hb, ?_⟩
    simp only [decide_eq_true_eq]
    intro heq
    exact hnoref l hl (by rw [← hbid, heq])

/-- C1, counterexample: the claim that every reachable state satisfies the
copy-counter invariant is false.  Starting from an empty database with one
active member, creating a one-copy book, borrowing it, and then sending the
book through PUT /books/:id with total_copies = 1 and available_copies = 1
reaches a state whose stored available_copies (1) differs from
total_copies minus the number of active loans (1 - 1 = 0): the update route
writes the caller-supplied counters verbatim instead of reconciling them. -/
theorem c1_counters_counterexample :
    Reachable demoState3 ∧ ¬ CountersInvariant demoState3 := by
  constructor
  · have h0 : Reachable demoState0 := Reachable.init [demoMember]
    have h1 : Reachable demoState1 :=
      h0.step (Step.createBook demoState0 demoBookReq)
    have h2 : Reachable demoState2 :=
      h1.step (Step.createLoan demoState1 demoState2 0 1 1 none none (by decide))
    exact h2.step (Step.updateBook demoState2 1 demoUpdateReq)
  · decide

/-- C1, amended: under the database-level invariants (keys, foreign key, no
lost rows), book creation with a nonnegative total_copies and every
loan-side operation (createLoan, returnLoan, extendDueDate, the overdue
sweep, the fine batch) and book deletion preserve the copy-counter
invariant; the book-update operation, however, performs no reconciliation at
all: it stores the caller-supplied total_copies and available_copies
verbatim, so it preserves the invariant only when the caller supplies
consistent values. -/
theorem c1_counters_amended (s : LibraryState) (hInv : Inv s) :
    (∀ req : BookRequest, 0 ≤ req.total_copies →
        CountersInvariant (createBook req s).1) ∧
    (∀ (today : Int) (bid mid : Nat) (bd dd : Option Int) (s' : LibraryState),
        createLoan today bid mid bd dd s = Except.ok s' →
        CountersInvariant s') ∧
    (∀ (today : Int) (lid : Nat) (rd fa : Option Int) (s' : LibraryState),
        returnLoan today lid rd fa s = Except.ok s' → CountersInvariant s') ∧
    (∀ (lid : Nat) (nd : Option Int) (s' : LibraryState),
        extendDueDate lid nd s = Except.ok s' → CountersInvariant s') ∧
    (∀ today : Int, CountersInvariant (updateOverdue today s)) ∧
    (∀ (today : Int) (fpd : Option Int),
        CountersInvariant (calculateFines today fpd s)) ∧
    (∀ (bid : Nat) (s' : LibraryState),
        deleteBook bid s = Except.ok s' → CountersInvariant s') ∧
    (∀ (bid : Nat) (req : BookUpdateRequest),
        ∀ b ∈ (updateBook bid req s).books, b.book_id = bid →
        b.total_copies = req.total_copies ∧
          b.available_copies = req.available_copies) := by
  refine ⟨?_, ?_, ?_, ?_, ?_, ?_, ?_, ?_⟩
  · intro req h
    exact (inv_createBook s req h hInv).1
  · intro today bid mid bd dd s' hok
    exact (inv_createLoan s s' today bid mid bd dd hInv hok).1
  · intro today lid rd fa s' hok
    exact (inv_returnLoan s s' today lid rd fa hInv hok).1
  · intro lid nd s' hok
    exact (inv_extendDueDate s s' lid nd hInv hok).1
  · intro today
    exact (inv_updateOverdue s today hInv).1
  · intro today fpd
    exact (inv_calculateFines s today fpd hInv).1
  · intro bid s' hok
    exact (inv_deleteBook s s' bid hInv hok).1
  · intro bid req b hb hbid
    simp only [updateBook, List.mem_map] at hb
    obtain ⟨b0, hb0, rfl⟩ := hb
    by_cases h : b0.book_id = bid
    · simp [h]
    · rw [if_neg h] at hbid
      exact absurd hbid h

/-- C1, witness: the concrete one-book one-loan state satisfies the
invariant hypotheses, and the amended statement holds of it. -/
theorem c1_counters_amended_witness :
    Inv demoState2 ∧
    ((∀ req : BookRequest, 0 ≤ req.total_copies →
        CountersInvariant (createBook req demoState2).1) ∧
    (∀ (today : Int) (bid mid : Nat) (bd dd : Option Int) (s' : LibraryState),
        createLoan today bid mid bd dd demoState2 = Except.ok s' →
        CountersInvariant s') ∧
    (∀ (today : Int) (lid : Nat) (rd fa : Option Int) (s' : LibraryState),
        returnLoan today lid rd fa demoState2 = Except.ok s' →
        CountersInvariant s') ∧
    (∀ (lid : Nat) (nd : Option Int) (s' : LibraryState),
        extendDueDate lid nd demoState2 = Except.ok s' →
        CountersInvariant s') ∧
    (∀ today : Int, CountersInvariant (updateOverdue today demoState2)) ∧
    (∀ (today : Int) (fpd : Option Int),
        CountersInvariant (calculateFines today fpd demoState2)) ∧
    (∀ (bid : Nat) (s' : LibraryState),
        deleteBook bid demoState2 = Except.ok s' → CountersInvariant s') ∧
    (∀ (bid : Nat) (req : BookUpdateRequest),
        ∀ b ∈ (updateBook bid req demoState2).books, b.book_id = bid →
        b.total_copies = req.total_copies ∧
          b.available_copies = req.available_copies)) :=
  ⟨by decide, c1_counters_amended demoState2 (by decide)⟩

/-- C2: in the sequential semantics of the handler, createLoan decrements
available_copies only after observing it positive, answers NoAvailableCopies
whenever the book has zero available copies, and never drives any
available_copies negative (given nonnegative counters and unique book ids
beforehand). -/
theorem c2_conditional_decrement (s : LibraryState) (today : Int)
    (bid mid : Nat) (bd dd : Option Int)
    (hpos : ∀ b ∈ s.books, 0 ≤ b.available_copies)
    (hnd : BookIdsNodup s) :
    (∀ book, findBook s bid = some book → book.available_copies = 0 →
        createLoan today bid mid bd dd s =
          Except.error LibError.NoAvailableCopies) ∧
    (∀ s', createLoan today bid mid bd dd s = Except.ok s' →
        ∃ book, findBook s bid = some book ∧ 0 < book.available_copies ∧
          ∀ b ∈ s'.books, 0 ≤ b.available_copies) ∧
    (∀ b ∈ (commit s (createLoan today bid mid bd dd s)).books,
        0 ≤ b.available_copies) := by
  have hsucc : ∀ s', createLoan today bid mid bd dd s = Except.ok s' →
      ∃ book, findBook s bid = some book ∧ 0 < book.available_copies ∧
        ∀ b ∈ s'.books, 0 ≤ b.available_copies := by
    intro s' hok
    unfold createLoan at hok
    split at hok
    · exact Except.noConfusion hok
    rename_i book hfb
    split at hok
    · exact Except.noConfusion hok
    rename_i hav
    split at hok
    · exact Except.noConfusion hok
    rename_i m hfm
    split at hok
    · exact Except.noConfusion hok
    split at hok
    · exact Except.noConfusion hok
    injection hok with hok
    subst hok
    refine ⟨book, hfb, by omega, ?_⟩
    intro b' hb'
    simp only [afterBorrowingInsert, List.mem_map] at hb'
    obtain ⟨b, hb, rfl⟩ := hb'
    by_cases h : b.book_id = bid
    · have hbeq : b = book := find_book_unique s.books bid book b hnd hfb hb h
      subst hbeq
      simp only [if_pos h]
      have hb0 := hpos b hb
      omega
    · simp only [if_neg h]
      exact hpos b hb
  refine ⟨?_, hsucc, ?_⟩
  · intro book hfb hz
    unfold createLoan
    rw [hfb]
    have hle : book.available_copies ≤ 0 := le_of_eq hz
    simp [hle]
  · intro b hb
    cases hres : createLoan today bid mid bd dd s with
    | error e =>
      rw [hres] at hb
      exact hpos b (by simpa [commit] using hb)
    | ok s' =>
      obtain ⟨book, _, _, hall⟩ := hsucc s' hres
      rw [hres] at hb
      exact hall b (by simpa [commit] using hb)

/-- C2, witness: the state with the freshly created one-copy book satisfies
the hypotheses, and the statement holds of it. -/
theorem c2_conditional_decrement_witness :
    ((∀ b ∈ demoState1.books, 0 ≤ b.available_copies) ∧
      BookIdsNodup demoState1) ∧
    ((∀ book, findBook demoState1 1 = some book → book.available_copies = 0 →
        createLoan 0 1 1 none none demoState1 =
          Except.error LibError.NoAvailableCopies) ∧
    (∀ s', createLoan 0 1 1 none none demoState1 = Except.ok s' →
        ∃ book, findBook demoState1 1 = some book ∧
          0 < book.available_copies ∧ ∀ b ∈ s'.books, 0 ≤ b.available_copies) ∧
    (∀ b ∈ (commit demoState1 (createLoan 0 1 1 none none demoState1)).books,
        0 ≤ b.available_copies)) :=
  ⟨⟨by decide, by decide⟩,
    c2_conditional_decrement demoState1 0 1 1 none none (by decide) (by decide)⟩

/-- C3, counterexample: lost is not a terminal status.  On a database whose
only loan has status lost, the return handler succeeds (its guard rejects
only status returned) and rewrites the status of that loan to returned. -/
theorem c3_terminal_counterexample :
    lostState.loans.map Loan.status = [LoanStatus.lost] ∧
    (commit lostState (returnLoan 20 1 none none lostState)).loans.map
        Loan.status = [LoanStatus.returned] := by
  decide

/-- C3, amended: returned (alone) is terminal.  With borrowing_id a key, a
loan whose status is returned keeps status returned across returnLoan,
extendDueDate, the overdue sweep and the fine batch, whatever their
arguments and whether they succeed or roll back. -/
theorem c3_returned_terminal (s : LibraryState) (l : Loan)
    (hnd : LoanIdsNodup s) (hl : l ∈ s.loans)
    (hret : l.status = LoanStatus.returned) :
    (∀ (today : Int) (lid : Nat) (rd fa : Option Int),
      ∀ l' ∈ (commit s (returnLoan today lid rd fa s)).loans,
        l'.borrowing_id = l.borrowing_id → l'.status = LoanStatus.returned) ∧
    (∀ (lid : Nat) (nd : Option Int),
      ∀ l' ∈ (commit s (extendDueDate lid nd s)).loans,
        l'.borrowing_id = l.borrowing_id → l'.status = LoanStatus.returned) ∧
    (∀ today : Int, ∀ l' ∈ (updateOverdue today s).loans,
        l'.borrowing_id = l.borrowing_id → l'.status = LoanStatus.returned) ∧
    (∀ (today : Int) (fpd : Option Int),
      ∀ l' ∈ (calculateFines today fpd s).loans,
        l'.borrowing_id = l.borrowing_id → l'.status = LoanStatus.returned) := by
  have hsame : ∀ l' ∈ s.loans, l'.borrowing_id = l.borrowing_id →
      l'.status = LoanStatus.returned := by
    intro l' hl' hid
    have : l' = l := List.inj_on_of_nodup_map hnd hl' hl hid
    rw [this, hret]
  refine ⟨?_, ?_, ?_, ?_⟩
  · intro today lid rd fa l' hl' hid
    cases hres : returnLoan today lid rd fa s with
    | error e =>
      rw [hres] at hl'
      exact hsame l' (by simpa [commit] using hl') hid
    | ok s' =>
      rw [hres] at hl'
      unfold returnLoan at hres
      split at hres
      · exact Except.noConfusion hres
      rename_i loan hfl
      split at hres
      · exact Except.noConfusion hres
      injection hres with hres
      subst hres
      simp only [commit, List.mem_map] at hl'
      obtain ⟨x, hx, rfl⟩ := hl'
      by_cases h : x.borrowing_id = lid
      · simp [h]
      · rw [if_neg h] at hid ⊢
        exact hsame x hx hid
  · intro lid nd l' hl' hid
    cases hres : extendDueDate lid nd s with
    | error e =>
      rw [hres] at hl'
      exact hsame l' (by simpa [commit] using hl') hid
    | ok s' =>
      rw [hres] at hl'
      unfold extendDueDate at hres
      split at hres
      · exact Except.noConfusion hres
      rename_i nd'
      split at hres
      · exact Except.noConfusion hres
      rename_i loan hfl
      split at hres
      · exact Except.noConfusion hres
      split at hres
      · exact Except.noConfusion hres
      injection hres with hres
      subst hres
      simp only [commit, List.mem_map] at hl'
      obtain ⟨x, hx, rfl⟩ := hl'
      by_cases h : x.borrowing_id = lid
      · have hid' : x.borrowing_id = l.borrowing_id := by
          rw [h]
          simpa [h] using hid
        have hx' := hsame x hx hid'
        simp [h, extendStatus, hx']
      · rw [if_neg h] at hid ⊢
        exact hsame x hx hid
  · intro today l' hl' hid
    simp only [updateOverdue, List.mem_map] at hl'
    obtain ⟨x, hx, rfl⟩ := hl'
    by_cases h : x.due_date < today ∧ x.status = LoanStatus.borrowed
    · simp only [h, if_pos, and_self] at hid
      have hx' := hsame x hx (by simpa [h] using hid)
      rw [hx'] at h
      exact absurd h.2 (by simp)
    · rw [if_neg h] at hid ⊢
      exact hsame x hx hid
  · intro today fpd l' hl' hid
    simp only [calculateFines, List.mem_map] at hl'
    obtain ⟨x, hx, rfl⟩ := hl'
    by_cases h : x.status = LoanStatus.overdue ∧ x.return_date = none
    · have hid' : x.borrowing_id = l.borrowing_id := by simpa [h] using hid
      have hx' := hsame x hx hid'
      rw [hx'] at h
      exact absurd h.1 (by simp)
    · rw [if_neg h] at hid ⊢
      exact hsame x hx hid

/-- C3, witness: the concrete database with one returned loan satisfies the
hypotheses, and the amended statement holds of it. -/
theorem c3_returned_terminal_witness :
    (LoanIdsNodup returnedState ∧ returnedLoan ∈ returnedState.loans ∧
      returnedLoan.status = LoanStatus.returned) ∧
    ((∀ (today : Int) (lid : Nat) (rd fa : Option Int),
      ∀ l' ∈ (commit returnedState
          (returnLoan today lid rd fa returnedState)).loans,
        l'.borrowing_id = returnedLoan.borrowing_id →
          l'.status = LoanStatus.returned) ∧
    (∀ (lid : Nat) (nd : Option Int),
      ∀ l' ∈ (commit returnedState (extendDueDate lid nd returnedState)).loans,
        l'.borrowing_id = returnedLoan.borrowing_id →
          l'.status = LoanStatus.returned) ∧
    (∀ today : Int, ∀ l' ∈ (updateOverdue today returnedState).loans,
        l'.borrowing_id = returnedLoan.borrowing_id →
          l'.status = LoanStatus.returned) ∧
    (∀ (today : Int) (fpd : Option Int),
      ∀ l' ∈ (calculateFines today fpd returnedState).loans,
        l'.borrowing_id = returnedLoan.borrowing_id →
          l'.status = LoanStatus.returned)) :=
  ⟨⟨by decide, by decide, by decide⟩,
    c3_returned_terminal returnedState returnedLoan (by decide) (by decide)
      (by decide)⟩

/-- C4: returnLoan on a loan whose status is already returned fails with
AlreadyReturned and the rolled-back transaction leaves the whole database
state, hence the loan row and available_copies, unchanged. -/
theorem c4_already_returned (s : LibraryState) (today : Int) (lid : Nat)
    (rd fa : Option Int) (l0 : Loan)
    (hfind : findLoan s lid = some l0)
    (hret : l0.status = LoanStatus.returned) :
    returnLoan today lid rd fa s = Except.error LibError.AlreadyReturned ∧
    commit s (returnLoan today lid rd fa s) = s := by
  have h1 : returnLoan today lid rd fa s =
      Except.error LibError.AlreadyReturned := by
    unfold returnLoan
    rw [hfind]
    simp [hret]
  refine ⟨h1, ?_⟩
  rw [h1]
  rfl

/-- C4, witness: the concrete database with one returned loan satisfies the
hypotheses, and the statement holds of it. -/
theorem c4_already_returned_witness :
    (findLoan returnedState 1 = some returnedLoan ∧
      returnedLoan.status = LoanStatus.returned) ∧
    (returnLoan 20 1 (some 20) (some 7) returnedState =
        Except.error LibError.AlreadyReturned ∧
      commit returnedState (returnLoan 20 1 (some 20) (some 7) returnedState) =
        returnedState) :=
  ⟨⟨by decide, by decide⟩,
    c4_already_returned returnedState 20 1 (some 20) (some 7) returnedLoan
      (by decide) (by decide)⟩

/-- C5, counterexample: a return with no fine supplied does not preserve the
previously computed fine.  On the database whose only loan carries
fine_amount 5, returning it without a fine argument stores fine_amount 0
(the handler writes the JS expression fine_amount || 0). -/
theorem c5_fine_overwrite_counterexample :
    finedState.loans.map Loan.fine_amount = [5] ∧
    (commit finedState (returnLoan 20 1 none none finedState)).loans.map
        Loan.fine_amount = [0] := by
  decide

/-- C5, amended: when returnLoan is called without a fine amount on a loan
not yet returned, it succeeds and stores fine_amount 0 on that loan,
overwriting whatever fine had been computed before. -/
theorem c5_fine_default_zero (s : LibraryState) (today : Int) (lid : Nat)
    (rd : Option Int) (l0 : Loan)
    (hfind : findLoan s lid = some l0)
    (hret : l0.status ≠ LoanStatus.returned) :
    ∃ s', returnLoan today lid rd none s = Except.ok s' ∧
      ∀ l' ∈ s'.loans, l'.borrowing_id = lid → l'.fine_amount = 0 := by
  have h1 : returnLoan today lid rd none s = Except.ok
      { s with
        loans := s.loans.map (fun l =>
          if l.borrowing_id = lid then
            { l with
              status := LoanStatus.returned
              return_date := some (rd.getD today)
              fine_amount := (none : Option Int).getD 0 }
          else l)
        books := afterBorrowingUpdate s.books l0.status
          LoanStatus.returned l0.book_id } := by
    unfold returnLoan
    rw [hfind]
    simp [hret]
  refine ⟨_, h1, ?_⟩
  intro l' hl' hid
  simp only [List.mem_map] at hl'
  obtain ⟨x, hx, rfl⟩ := hl'
  by_cases h : x.borrowing_id = lid
  · simp [h]
  · rw [if_neg h] at hid
    exact absurd hid h

/-- C5, witness: the fined-loan database satisfies the hypotheses, and the
amended statement holds of it. -/
theorem c5_fine_default_zero_witness :
    (findLoan finedState 1 = some finedLoan ∧
      finedLoan.status ≠ LoanStatus.returned) ∧
    (∃ s', returnLoan 20 1 none none finedState = Except.ok s' ∧
      ∀ l' ∈ s'.loans, l'.borrowing_id = 1 → l'.fine_amount = 0) :=
  ⟨⟨by decide, by decide⟩,
    c5_fine_default_zero finedState 20 1 none finedLoan (by decide)
      (by decide)⟩

/-- C6, counterexample: the defaulted due date is not borrow_date + 14.
Borrowing with borrow_date day 0 while the current date is day 100 and no
due date supplied stores due_date 114 (current date + 14), not 14
(borrow_date + 14). -/
theorem c6_due_date_counterexample :
    (commit demoState1 (createLoan 100 1 1 (some 0) none demoState1)).loans.map
        Loan.borrow_date = [0] ∧
    (commit demoState1 (createLoan 100 1 1 (some 0) none demoState1)).loans.map
        Loan.due_date = [114] ∧
    (114 : Int) ≠ 0 + 14 := by
  decide

/-- C6, amended: when createLoan succeeds with a supplied borrow date and no
due date, the inserted loan has the supplied borrow_date and
due_date = current date + 14 (the handler computes the default from
new Date(), not from the borrow date). -/
theorem c6_due_date_default (s : LibraryState) (today : Int) (bid mid : Nat)
    (bd : Int) (s' : LibraryState)
    (hok : createLoan today bid mid (some bd) none s = Except.ok s') :
    ∃ loan : Loan, s'.loans = s.loans ++ [loan] ∧
      loan.borrow_date = bd ∧ loan.due_date = today + 14 := by
  unfold createLoan at hok
  split at hok
  · exact Except.noConfusion hok
  split at hok
  · exact Except.noConfusion hok
  split at hok
  · exact Except.noConfusion hok
  split at hok
  · exact Except.noConfusion hok
  split at hok
  · exact Except.noConfusion hok
  injection hok with hok
  subst hok
  exact ⟨_, rfl, rfl, rfl⟩

/-- C6, witness: borrowing the demo book on day 100 with borrow_date 0 and
no due date yields a loan due on day 114. -/
theorem c6_due_date_default_witness :
    createLoan 100 1 1 (some 0) none demoState1 =
      Except.ok
        (commit demoState1 (createLoan 100 1 1 (some 0) none demoState1)) ∧
    ∃ loan : Loan,
      (commit demoState1 (createLoan 100 1 1 (some 0) none demoState1)).loans =
        demoState1.loans ++ [loan] ∧
      loan.borrow_date = 0 ∧ loan.due_date = 100 + 14 :=
  ⟨by decide, c6_due_date_default demoState1 100 1 1 0 _ (by decide)⟩

/-- C7, counterexample: the stored fine is not clamped at zero.  Running the
fine batch on day 5 over a database whose only overdue loan is due on day 14
stores fine_amount (5 - 14) * 1 = -9, while the claimed formula
max(0, daysBetween) * finePerDay gives 0. -/
theorem c7_fine_formula_counterexample :
    (calculateFines 5 (some 1) finedState).loans.map Loan.fine_amount =
      [-9] ∧
    max 0 (5 - (14 : Int)) * 1 = 0 := by
  decide

/-- C7, amended: the fine batch leaves the books table untouched and, for
every loan, stores (asOfDate - due_date) * finePerDay — without the max-0
clamp, so the stored amount is negative whenever the due date lies after
asOfDate — exactly on the loans with status overdue and NULL return_date,
leaving every other loan unchanged; on the Scenario C database (due
2024-01-10, as of 2024-01-15, fine 1 per day) the stored fine is 5. -/
theorem c7_fine_formula_amended (today : Int) (fpd : Option Int)
    (s : LibraryState) :
    (calculateFines today fpd s).books = s.books ∧
    List.Forall₂ (fun l l' : Loan =>
      (l.status = LoanStatus.overdue ∧ l.return_date = none →
        l' = { l with
          fine_amount := (today - l.due_date) * dailyFine fpd }) ∧
      (¬ (l.status = LoanStatus.overdue ∧ l.return_date = none) → l' = l))
      s.loans (calculateFines today fpd s).loans ∧
    (calculateFines 19737 (some 1) scenarioOverdueState).loans.map
        Loan.fine_amount = [5] := by
  refine ⟨rfl, ?_, by decide⟩
  unfold calculateFines
  simp only [List.forall₂_map_right_iff]
  rw [List.forall₂_same]
  intro l _
  constructor
  · intro h
    rw [if_pos h]
  · intro h
    rw [if_neg h]

/-- C8: the fine batch is idempotent — running it twice with the same
current date and the same fine_per_day produces exactly the state produced
by one run, every stored fine_amount included. -/
theorem c8_fines_idempotent (today : Int) (fpd : Option Int)
    (s : LibraryState) :
    calculateFines today fpd (calculateFines today fpd s) =
      calculateFines today fpd s := by
  unfold calculateFines
  simp only [List.map_map]
  congr 1
  apply List.map_congr_left
  intro l _
  by_cases h : l.status = LoanStatus.overdue ∧ l.return_date = none
  · simp [Function.comp_apply, h]
  · simp [Function.comp_apply, h]

/-- C9: replacing the author (and category) links inside PUT /books/:id has
full-replacement semantics: after the update with a supplied id list, the
link rows of the book are exactly the supplied set, every previously linked
id missing from the list is unlinked, links of other books are untouched,
and the empty list leaves the book with no links at all. -/
theorem c9_replace_links (s : LibraryState) (bid : Nat)
    (req : BookUpdateRequest) (aids cids : List Nat) :
    (∀ p : Nat × Nat,
      p ∈ (updateBook bid { req with author_ids := some aids } s).book_authors
        ↔ ((p.1 = bid ∧ p.2 ∈ aids) ∨ (p.1 ≠ bid ∧ p ∈ s.book_authors))) ∧
    (∀ p : Nat × Nat,
      p ∈ (updateBook bid
          { req with category_ids := some cids } s).book_categories
        ↔ ((p.1 = bid ∧ p.2 ∈ cids) ∨
            (p.1 ≠ bid ∧ p ∈ s.book_categories))) ∧
    (∀ a : Nat, (bid, a) ∉
      (updateBook bid { req with author_ids := some [] } s).book_authors) := by
  have key : ∀ (links : List (Nat × Nat)) (ids : List Nat) (p : Nat × Nat),
      p ∈ replaceLinks links bid ids ↔
        ((p.1 = bid ∧ p.2 ∈ ids) ∨ (p.1 ≠ bid ∧ p ∈ links)) := by
    intro links ids p
    obtain ⟨p1, p2⟩ := p
    simp only [replaceLinks, List.mem_append, List.mem_filter,
      List.mem_map, decide_eq_true_eq, Prod.mk.injEq]
    constructor
    · rintro (⟨hmem, hne⟩ | ⟨i, hi, h1, h2⟩)
      · exact Or.inr ⟨hne, hmem⟩
      · exact Or.inl ⟨h1.symm, h2 ▸ hi⟩
    · rintro (⟨h1, h2⟩ | ⟨hne, hmem⟩)
      · exact Or.inr ⟨p2, h2, h1.symm, rfl⟩
      · exact Or.inl ⟨hmem, hne⟩
  refine ⟨?_, ?_, ?_⟩
  · intro p
    exact key s.book_authors aids p
  · intro p
    exact key s.book_categories cids p
  · intro a hmem
    rcases (key s.book_authors [] (bid, a)).mp hmem with ⟨_, h⟩ | ⟨h, _⟩
    · simp at h
    · exact h rfl

/-- C10: deleting a book that still has a loan with status borrowed or
overdue always fails with BookHasActiveLoans, and the rolled-back request
leaves the whole database — the book row, its links and its loans —
unchanged. -/
theorem c10_delete_active_loans (s : LibraryState) (bid : Nat) (l : Loan)
    (hl : l ∈ s.loans) (hbid : l.book_id = bid) (hact : loanActive l) :
    deleteBook bid s = Except.error LibError.BookHasActiveLoans ∧
    commit s (deleteBook bid s) = s := by
  have hpos : 0 < GetActiveBorrowingsCount s.loans bid := by
    apply List.length_pos_of_mem (a := l)
    simp [List.mem_filter, hl, hbid, hact]
  have h1 : deleteBook bid s = Except.error LibError.BookHasActiveLoans := by
    unfold deleteBook
    rw [if_pos hpos]
  refine ⟨h1, ?_⟩
  rw [h1]
  rfl

/-- C10, witness: deleting book 1 of the demo database, whose loan is still
borrowed, fails and changes nothing. -/
theorem c10_delete_active_loans_witness :
    (demoLoan ∈ demoState2.loans ∧ demoLoan.book_id = 1 ∧
      loanActive demoLoan) ∧
    (deleteBook 1 demoState2 = Except.error LibError.BookHasActiveLoans ∧
      commit demoState2 (deleteBook 1 demoState2) = demoState2) :=
  ⟨⟨by decide, by decide, by decide⟩,
    c10_delete_active_loans demoState2 1 demoLoan (by decide) (by decide)
      (by decide)⟩

end SimpleLibrary
